import Mathlib

/-!
Shallow embedding of the documix session engine.

The definitions below are translated from the repository's TypeScript
sources:

* `lib/chat-store.ts` (in `components/assistant-ui/thread.tsx` bundle):
  `createChat`, `loadChat`, `saveChat`, `listChats` over browser
  `localStorage`.
* `thread-list.tsx` (in `README.md` bundle): `handleArchiveThread`
  (`localStorage.removeItem`).
* `app/api/chat/openai/route.ts` and the groq route (`unnamed/part_000`):
  the per-turn `POST` pipeline (query-text flattening, scoped retrieval
  with try/catch, grounding-block assembly, generation).
* `ChatComponent` (`unnamed/part_001`): the client turn loop that appends
  messages and persists the sequence on every change (`useChat` `onFinish`
  plus the save-on-change effect).

Modelling conventions: `localStorage` is a key-ordered association list;
keys are modelled by the inductive `Key`, where `Key.chat id` stands for
the string key `"chat-" ++ id` and `Key.other s` for any other key.
Stored values are modelled as already-parsed JSON trees (`Json`);
`JSON.parse` failure or an ill-shaped record is modelled by the decoder
returning `none`.  A stored `createdAt` is a JSON number or a string
(`JsTime`): the ai SDK's `Message.createdAt` is a `Date`, which
`JSON.stringify` turns into an ISO date string, and the `listChats`
sort comparator numerically coerces whatever comes back.  The external
vector index and the language model are parameters (`search`, `gen`), as
the spec treats them as external collaborators.
-/

namespace Documix

/-! ### JSON values -/

inductive Json where
  | null
  | str (s : String)
  | num (n : Nat)
  | arr (elems : List Json)
  | obj (fields : List (String × Json))

/-! ### Messages (the `Message` type of the ai SDK, restricted to the
fields the chat store reads: `id`, `role`, `content`, `createdAt`). -/

/-- A `createdAt` value as it sits in a stored record: a JSON number,
or a string.  The ai SDK's `Message.createdAt` is a JavaScript `Date`,
which `JSON.stringify` serializes to an ISO date string, so the records
the client itself writes carry `str` timestamps. -/
inductive JsTime where
  | num (n : Nat)
  | str (s : String)
deriving DecidableEq, Repr

structure Message where
  id : String
  role : String
  content : String
  createdAt : Option JsTime
deriving DecidableEq, Repr

def getField (fields : List (String × Json)) (name : String) : Option Json :=
  (fields.find? (fun f => f.1 == name)).map (fun f => f.2)

/-- JSON serialization of one message (`JSON.stringify` in `saveChat`). -/
def encodeMessage (m : Message) : Json :=
  .obj ([("id", Json.str m.id), ("role", Json.str m.role),
         ("content", Json.str m.content)] ++
    (match m.createdAt with
     | some (.num n) => [("createdAt", Json.num n)]
     | some (.str s) => [("createdAt", Json.str s)]
     | none => []))

/-- Reading one message record back (`JSON.parse` in `loadChat` /
`listChats`); `none` models an ill-shaped record, which in the source
surfaces as a thrown error when the fields are used. -/
def decodeMessage : Json → Option Message
  | .obj fs =>
    match getField fs "id", getField fs "role", getField fs "content",
          getField fs "createdAt" with
    | some (.str i), some (.str r), some (.str c), some (.num n) =>
        some ⟨i, r, c, some (.num n)⟩
    | some (.str i), some (.str r), some (.str c), some (.str t) =>
        some ⟨i, r, c, some (.str t)⟩
    | some (.str i), some (.str r), some (.str c), none =>
        some ⟨i, r, c, none⟩
    | _, _, _, _ => none
  | _ => none

def decodeMessageList : List Json → Option (List Message)
  | [] => some []
  | j :: js =>
    match decodeMessage j, decodeMessageList js with
    | some m, some ms => some (m :: ms)
    | _, _ => none

def decodeMessages : Json → Option (List Message)
  | .arr js => decodeMessageList js
  | _ => none

def encodeMessages (msgs : List Message) : Json :=
  .arr (msgs.map encodeMessage)

/-! ### localStorage model -/

/-- A `localStorage` key: `chat id` stands for the string
`"chat-" ++ id`; `other` is any key without the `chat-` prefix. -/
inductive Key where
  | chat (id : String)
  | other (raw : String)
deriving DecidableEq

/-- Model of `localStorage` as an insertion-ordered association list. -/
abbrev Store := List (Key × Json)

def getItem (s : Store) (k : Key) : Option Json :=
  (s.find? (fun e => decide (e.1 = k))).map (fun e => e.2)

/-- Model of `localStorage.setItem`: overwrite in place if the key exists,
otherwise append. -/
def setItem : Store → Key → Json → Store
  | [], k, v => [(k, v)]
  | e :: rest, k, v =>
    if e.1 = k then (k, v) :: rest else e :: setItem rest k v

/-- Model of `localStorage.removeItem`. -/
def removeItem (s : Store) (k : Key) : Store :=
  s.filter (fun e => decide (e.1 ≠ k))

/-! ### Chat store (`lib/chat-store.ts`) -/

/-- Source `createChat`: store an empty message array under a fresh id (the id
itself comes from `generateId()`, modelled as a parameter). -/
def createChat (s : Store) (id : String) : Store :=
  setItem s (Key.chat id) (encodeMessages [])

/-- Source `loadChat`: absent key yields the empty sequence; a present record
is parsed.  `some msgs` is a successful load, `none` models the
ill-typed/thrown outcome of parsing a corrupt record. -/
def loadChat (s : Store) (id : String) : Option (List Message) :=
  match getItem s (Key.chat id) with
  | some j => decodeMessages j
  | none => some []

/-- Source `saveChat`: replace the stored sequence in full. -/
def saveChat (s : Store) (id : String) (messages : List Message) : Store :=
  setItem s (Key.chat id) (encodeMessages messages)

/-- Source `handleArchiveThread` in `thread-list.tsx`:
`localStorage.removeItem("chat-" ++ id)`. -/
def archiveChat (s : Store) (id : String) : Store :=
  removeItem s (Key.chat id)

/-! ### listChats -/

structure ChatSummary where
  id : String
  title : String
  createdAt : JsTime
deriving DecidableEq, Repr

/-- Title derivation in `listChats`: first user message sliced to 30
characters with an ellipsis when longer, else `Chat` plus the first six
characters of the id. -/
def chatTitle (messages : List Message) (id : String) : String :=
  match messages.find? (fun m => m.role == "user") with
  | some m => m.content.take 30 ++ (if 30 < m.content.length then "..." else "")
  | none => "Chat " ++ id.take 6

/-- Expression `messages[0]?.createdAt || Date.now()`: the first message's
timestamp unless it is falsy (absent, the number `0`, or the empty
string), else the current time (a number). -/
def chatCreatedAt (messages : List Message) (now : Nat) : JsTime :=
  match messages.head? with
  | some m =>
    match m.createdAt with
    | some (.num n) => if n == 0 then .num now else .num n
    | some (.str s) => if s == "" then .num now else .str s
    | none => .num now
  | none => .num now

/-- One iteration of the `listChats` loop: non-`chat-` keys are skipped
by the prefix test; a record that fails to parse is skipped by the
`try`/`catch`. -/
def summarizeEntry (now : Nat) : Key × Json → Option ChatSummary
  | (Key.chat id, j) =>
    match decodeMessages j with
    | some messages => some ⟨id, chatTitle messages id, chatCreatedAt messages now⟩
    | none => none
  | (Key.other _, _) => none

/-- Digit-string value, for the numeric coercion below. -/
def digitsToNat (l : List Char) : Nat :=
  l.foldl (fun acc c => acc * 10 + (c.toNat - 48)) 0

/-- JavaScript `Number()` coercion of a `createdAt` value, as applied
by the subtraction in the sort comparator: numbers pass through,
digit-only strings (including the empty string, which coerces to `0`)
parse as numbers, and anything else — in particular the ISO date
strings that `JSON.stringify` makes of `Date` values — is `NaN`,
modelled as `none`. -/
def jsToNumber : JsTime → Option Nat
  | .num n => some n
  | .str s => if s.data.all Char.isDigit then some (digitsToNat s.data) else none

/-- The comparator `(a, b) => b.createdAt - a.createdAt` of
`Array.prototype.sort` in `listChats`; `none` is `NaN` (either operand
failed numeric coercion). -/
def summaryCompare (a b : ChatSummary) : Option Int :=
  match jsToNumber b.createdAt, jsToNumber a.createdAt with
  | some nb, some na => some ((nb : Int) - (na : Int))
  | _, _ => none

/-- Whether the comparator orders `y` strictly in front of `x`:
`Array.prototype.sort` treats a `NaN` comparator result as `+0`, so a
pair is reordered only on a strictly positive value. -/
def comparePos (x y : ChatSummary) : Bool :=
  match summaryCompare x y with
  | some v => decide (0 < v)
  | none => false

/-- Stable insertion modelling `Array.prototype.sort` with the
comparator above (the sort is stable since ES2019, and a `+0`/`NaN`
comparator result keeps the pair's relative order).  The inserted
element precedes the tail in enumeration order, so it moves past `y`
only on a strictly positive comparator value. -/
def sortInsert (x : ChatSummary) : List ChatSummary → List ChatSummary
  | [] => [x]
  | y :: ys =>
    if comparePos x y then y :: sortInsert x ys
    else x :: y :: ys

def sortSummaries : List ChatSummary → List ChatSummary
  | [] => []
  | x :: xs => sortInsert x (sortSummaries xs)

/-- Source `listChats`: summarize every parseable `chat-` entry, then
run the comparator sort over the summaries. -/
def listChats (s : Store) (now : Nat) : List ChatSummary :=
  sortSummaries (s.filterMap (summarizeEntry now))

/-! ### Client turn loop (`ChatComponent`, `unnamed/part_001`)

`useChat` appends the submitted user message, streams, and appends the
finalized assistant message; the save-on-change effect (lines 126-136)
persists the whole in-memory sequence whenever it changes and is
non-empty, and `onFinish` persists the completed conversation. -/

structure ClientState where
  store : Store
  messages : List Message

/-- The save-on-change effect: persist the current sequence when it is
non-empty. -/
def saveOnChange (id : String) (st : ClientState) : ClientState :=
  if 0 < st.messages.length then
    { st with store := saveChat st.store id st.messages }
  else st

/-- Appending one message to the in-memory sequence, after which the
effect fires. -/
def appendAndSave (id : String) (m : Message) (st : ClientState) : ClientState :=
  saveOnChange id { st with messages := st.messages ++ [m] }

/-- One turn: the user message is appended on submit, the finalized
assistant message on stream close (`Streaming` back to `Ready`). -/
def runTurn (id : String) (st : ClientState) (t : Message × Message) : ClientState :=
  appendAndSave id t.2 (appendAndSave id t.1 st)

def runTurns (id : String) (st : ClientState)
    (ts : List (Message × Message)) : ClientState :=
  ts.foldl (runTurn id) st

/-! ### API routes: request messages and retrieval -/

/-- One element of structured message content (`item` in the flattening
`map`): either a bare string or an object with an optional `text`
field. -/
inductive ContentItem where
  | str (s : String)
  | obj (text : Option String)
deriving DecidableEq

/-- Shape of `lastMessage.content`: either a plain string or an array of parts. -/
inductive ReqContent where
  | str (s : String)
  | parts (items : List ContentItem)

structure ReqMsg where
  role : String
  content : ReqContent

/-- Expression `typeof item === "string" ? item : item.text || ""`. -/
def flattenItem : ContentItem → String
  | .str s => s
  | .obj (some t) => t
  | .obj none => ""

/-- The `queryText` derivation: join flattened parts with spaces, or
`content.toString()` for a plain string. -/
def queryTextOf : ReqContent → String
  | .str s => s
  | .parts items => String.intercalate " " (items.map flattenItem)

/-- JavaScript truthiness of `lastMessage.content`: an empty string is
falsy; an array (even an empty one) is truthy. -/
def contentTruthy : ReqContent → Bool
  | .str s => decide (s ≠ "")
  | .parts _ => true

/-- A retrieved passage: page content plus the metadata fields the
routes read (`source`, `url`) and the scope key (`userId`) it is
indexed under. -/
structure Document where
  pageContent : String
  source : Option String
  url : Option String
  userId : String
deriving DecidableEq, Repr

/-- The retriever filter expression. The openai route builds a
quoted `userId = ...` equality; the groq route passes the empty
string. -/
inductive Filter where
  | empty
  | byUserId (u : String)

/-- Upstash filter semantics: the empty filter matches every record, a
`userId` filter matches records under that scope key. -/
def Filter.matches : Filter → Document → Bool
  | .empty, _ => true
  | .byUserId u, d => decide (d.userId = u)

/-- Model of `retriever.invoke`: query the external index (`search`, a
parameter), keep records matching the filter, return at most `k`. -/
def retrieverInvoke (search : String → Except String (List Document))
    (f : Filter) (k : Nat) (q : String) : Except String (List Document) :=
  (search q).map (fun ds => (ds.filter f.matches).take k)

/-- The retrieval block shared by both routes (openai route lines
56-78, groq route lines 42-62): skip when there is no last message or
its content is falsy; otherwise invoke the retriever on the flattened
query text, catching failures and continuing with no documents.  The
`Bool` records whether the backend was invoked. -/
def routeRetrieve (search : String → Except String (List Document))
    (f : Filter) (messages : List ReqMsg) : Bool × List Document :=
  match messages.getLast? with
  | some m =>
    if contentTruthy m.content then
      match retrieverInvoke search f 3 (queryTextOf m.content) with
      | .ok docs => (true, docs)
      | .error _ => (true, [])
    else (false, [])
  | none => (false, [])

/-! ### Context assembly and the route results -/

/-- Model of `.join(sep)` on a JavaScript array. -/
def joinSep (sep : String) : List String → String
  | [] => ""
  | [x] => x
  | x :: y :: xs => x ++ sep ++ joinSep sep (y :: xs)

/-- One labeled block of the openai route's `contextText` (index is
1-based in the label; the source falls back to `Unknown` when falsy). -/
def openaiDocBlock (i : Nat) (d : Document) : String :=
  "Document " ++ toString (i + 1) ++ ":\n" ++ d.pageContent ++
    "\nSource: " ++
    (match d.source with
     | some s => if s = "" then "Unknown" else s
     | none => "Unknown") ++ "\n"

def openaiDocBlocks : Nat → List Document → List String
  | _, [] => []
  | i, d :: ds => openaiDocBlock i d :: openaiDocBlocks (i + 1) ds

def openaiContextText (docs : List Document) : String :=
  joinSep "\n" (openaiDocBlocks 0 docs)

/-- One labeled block of the groq route's `contextText` (it labels and
cites by `metadata.url`; an absent url renders as `undefined` in the
template literal). -/
def groqDocBlock (d : Document) : String :=
  "Document " ++
    (match d.url with
     | some u => u
     | none => "undefined") ++ ":\n" ++ d.pageContent ++
    "\nSource: " ++
    (match d.url with
     | some u => if u = "" then "Unknown" else u
     | none => "Unknown") ++ "\n"

def groqContextText (docs : List Document) : String :=
  joinSep "\n" (docs.map groqDocBlock)

/-- Framing text prepended to the grounding block in both routes. -/
def groundingHeader : String :=
  "You have access to the following retrieved context documents. When answering, cite sources using [Source: URL] format when referencing specific information.\n\n"

/-- The observable outcome of one route invocation: whether the
retrieval backend was called, the retrieved documents, the assembled
context, the system-level grounding addition, and the text of the
assistant message produced by the generation stream. -/
structure RouteResult where
  retrievalAttempted : Bool
  retrievedDocs : List Document
  contextText : String
  system : Option String
  assistantText : String

/-- The `POST` handler of `app/api/chat/openai/route.ts`: the retriever is scoped
with a quoted `userId = ...` filter (a `null` query parameter
interpolates as the string `null`); the system prompt is added exactly when
documents were retrieved; generation (`streamText`, modelled by `gen`)
produces the assistant text. -/
def openaiPOST (userId : Option String) (messages : List ReqMsg)
    (search : String → Except String (List Document))
    (gen : List ReqMsg → Option String → String) : RouteResult :=
  let f := Filter.byUserId (userId.getD "null")
  let r := routeRetrieve search f messages
  let docs := r.2
  let contextText := if 0 < docs.length then openaiContextText docs else ""
  let system := if 0 < docs.length then some (groundingHeader ++ contextText)
    else none
  { retrievalAttempted := r.1
    retrievedDocs := docs
    contextText := contextText
    system := system
    assistantText := gen messages system }

/-- The `POST` handler of the groq route (`unnamed/part_000`): identical pipeline,
except the retriever is built with `filter: ""` (no scoping) and the
context blocks are labeled by `metadata.url`. -/
def groqPOST (messages : List ReqMsg)
    (search : String → Except String (List Document))
    (gen : List ReqMsg → Option String → String) : RouteResult :=
  let r := routeRetrieve search Filter.empty messages
  let docs := r.2
  let contextText := if 0 < docs.length then groqContextText docs else ""
  let system := if 0 < docs.length then some (groundingHeader ++ contextText)
    else none
  { retrievalAttempted := r.1
    retrievedDocs := docs
    contextText := contextText
    system := system
    assistantText := gen messages system }

/-- A string occurs literally inside another. -/
def Substr (needle hay : String) : Prop :=
  ∃ a b : List Char, hay.data = a ++ needle.data ++ b

/-! ### Serialization round-trip lemmas -/

theorem decodeMessage_encodeMessage (m : Message) :
    decodeMessage (encodeMessage m) = some m := by
  obtain ⟨i, r, c, ca⟩ := m
  rcases ca with _ | t
  · rfl
  · cases t <;> rfl

theorem decodeMessageList_map_encode (msgs : List Message) :
    decodeMessageList (msgs.map encodeMessage) = some msgs := by
  induction msgs with
  | nil => rfl
  | cons m ms ih =>
    simp [decodeMessageList, decodeMessage_encodeMessage, ih]

theorem decodeMessages_encodeMessages (msgs : List Message) :
    decodeMessages (encodeMessages msgs) = some msgs := by
  simp [decodeMessages, encodeMessages, decodeMessageList_map_encode]

/-! ### Store lemmas -/

theorem getItem_setItem_self (s : Store) (k : Key) (v : Json) :
    getItem (setItem s k v) k = some v := by
  induction s with
  | nil => simp [setItem, getItem, List.find?]
  | cons e rest ih =>
    by_cases h : e.1 = k
    · simp [setItem, h, getItem, List.find?]
    · simpa [setItem, h, getItem, List.find?] using ih

theorem loadChat_saveChat (s : Store) (id : String) (M : List Message) :
    loadChat (saveChat s id M) id = some M := by
  simp [loadChat, saveChat, getItem_setItem_self, decodeMessages_encodeMessages]

theorem getItem_removeItem_self (s : Store) (k : Key) :
    getItem (removeItem s k) k = none := by
  have h : (removeItem s k).find? (fun e => decide (e.1 = k)) = none := by
    rw [List.find?_eq_none]
    intro x hx
    have hne := (List.mem_filter.mp hx).2
    simp at hne ⊢
    exact hne
  simp [getItem, h]

theorem removeItem_of_getItem_none (s : Store) (k : Key)
    (h : getItem s k = none) : removeItem s k = s := by
  have hfind : s.find? (fun e => decide (e.1 = k)) = none := by
    cases hf : s.find? (fun e => decide (e.1 = k)) with
    | none => rfl
    | some e => rw [getItem, hf] at h; cases h
  rw [List.find?_eq_none] at hfind
  rw [removeItem, List.filter_eq_self]
  intro e he
  have := hfind e he
  simp at this ⊢
  exact this

theorem removeItem_removeItem (s : Store) (k : Key) :
    removeItem (removeItem s k) k = removeItem s k := by
  simp [removeItem, List.filter_filter]

/-! ### Sort lemmas -/

theorem perm_sortInsert (x : ChatSummary) (l : List ChatSummary) :
    (sortInsert x l).Perm (x :: l) := by
  induction l with
  | nil => exact List.Perm.refl _
  | cons y ys ih =>
    by_cases h : comparePos x y
    · rw [sortInsert, if_pos h]
      exact (ih.cons y).trans (List.Perm.swap x y ys)
    · rw [sortInsert, if_neg h]

theorem perm_sortSummaries (l : List ChatSummary) :
    (sortSummaries l).Perm l := by
  induction l with
  | nil => exact List.Perm.refl _
  | cons x xs ih =>
    exact (perm_sortInsert x (sortSummaries xs)).trans (ih.cons x)

theorem summarizeEntry_key {now : Nat} {e : Key × Json} {sm : ChatSummary}
    (h : summarizeEntry now e = some sm) : e.1 = Key.chat sm.id := by
  obtain ⟨k, j⟩ := e
  cases k with
  | chat id =>
    rw [summarizeEntry] at h
    cases hd : decodeMessages j with
    | none => rw [hd] at h; cases h
    | some messages =>
      rw [hd] at h
      cases h
      rfl
  | other raw => cases h

theorem summarizeEntry_inv {now : Nat} {e : Key × Json} {sm : ChatSummary}
    (h : summarizeEntry now e = some sm) :
    ∃ messages, decodeMessages e.2 = some messages ∧
      e.1 = Key.chat sm.id ∧ sm.title = chatTitle messages sm.id ∧
      sm.createdAt = chatCreatedAt messages now := by
  obtain ⟨k, j⟩ := e
  cases k with
  | chat id =>
    rw [summarizeEntry] at h
    cases hd : decodeMessages j with
    | none => rw [hd] at h; cases h
    | some messages =>
      rw [hd] at h
      cases h
      exact ⟨messages, rfl, rfl, rfl, rfl⟩
  | other raw => cases h

/-! ### Client turn-loop lemmas -/

theorem appendAndSave_messages (id : String) (m : Message) (st : ClientState) :
    (appendAndSave id m st).messages = st.messages ++ [m] := by
  rw [appendAndSave, saveOnChange]
  split <;> rfl

theorem appendAndSave_store (id : String) (m : Message) (st : ClientState) :
    (appendAndSave id m st).store = saveChat st.store id (st.messages ++ [m]) := by
  rw [appendAndSave, saveOnChange]
  rw [if_pos (by simp)]

theorem loadChat_appendAndSave (id : String) (m : Message) (st : ClientState) :
    loadChat (appendAndSave id m st).store id = some (appendAndSave id m st).messages := by
  rw [appendAndSave_store, appendAndSave_messages, loadChat_saveChat]

theorem loadChat_runTurn (id : String) (st : ClientState) (t : Message × Message) :
    loadChat (runTurn id st t).store id = some (runTurn id st t).messages :=
  loadChat_appendAndSave id t.2 (appendAndSave id t.1 st)

/-! ### Substring lemmas -/

theorem substr_self (s : String) : Substr s s :=
  ⟨[], [], by simp⟩

theorem substr_empty (h : String) : Substr "" h :=
  ⟨[], h.data, by simp⟩

theorem substr_appendLeft {n h : String} (x : String) (hs : Substr n h) :
    Substr n (x ++ h) := by
  obtain ⟨a, b, hab⟩ := hs
  exact ⟨x.data ++ a, b, by simp [String.data_append, hab]⟩

theorem substr_appendRight {n h : String} (x : String) (hs : Substr n h) :
    Substr n (h ++ x) := by
  obtain ⟨a, b, hab⟩ := hs
  exact ⟨a, b ++ x.data, by simp [String.data_append, hab]⟩

theorem substr_trans {a b c : String} (h1 : Substr a b) (h2 : Substr b c) :
    Substr a c := by
  obtain ⟨p, q, hpq⟩ := h1
  obtain ⟨r, s, hrs⟩ := h2
  exact ⟨r ++ p, q ++ s, by simp [hrs, hpq]⟩

theorem substr_joinSep {x : String} (sep : String) :
    ∀ {xs : List String}, x ∈ xs → Substr x (joinSep sep xs) := by
  intro xs
  induction xs with
  | nil => intro h; cases h
  | cons y ys ih =>
    intro h
    cases ys with
    | nil =>
      rcases List.mem_cons.mp h with h1 | h2
      · exact h1 ▸ substr_self y
      · cases h2
    | cons z zs =>
      rcases List.mem_cons.mp h with h1 | h2
      · subst h1
        exact substr_appendRight _ (substr_appendRight _ (substr_self x))
      · exact substr_appendLeft _ (ih h2)

/-! ### Grounding-block lemmas -/

theorem substr_pageContent_openaiDocBlock (i : Nat) (d : Document) :
    Substr d.pageContent (openaiDocBlock i d) :=
  ⟨("Document " ++ toString (i + 1) ++ ":\n").data,
   ("\nSource: " ++
     (match d.source with
      | some s => if s = "" then "Unknown" else s
      | none => "Unknown") ++ "\n").data,
   by simp [openaiDocBlock, String.data_append]⟩

theorem substr_source_openaiDocBlock (i : Nat) (d : Document) (src : String)
    (h : d.source = some src) : Substr src (openaiDocBlock i d) := by
  by_cases hsrc : src = ""
  · exact hsrc ▸ substr_empty _
  · refine ⟨("Document " ++ toString (i + 1) ++ ":\n" ++ d.pageContent ++
      "\nSource: ").data, ("\n").data, ?_⟩
    simp [openaiDocBlock, h, if_neg hsrc, String.data_append]

theorem mem_openaiDocBlocks {d : Document} :
    ∀ {docs : List Document}, d ∈ docs →
      ∀ i : Nat, ∃ j, openaiDocBlock j d ∈ openaiDocBlocks i docs := by
  intro docs
  induction docs with
  | nil => intro h; cases h
  | cons e ds ih =>
    intro h i
    rcases List.mem_cons.mp h with h1 | h2
    · exact ⟨i, by simp [openaiDocBlocks, h1]⟩
    · obtain ⟨j, hj⟩ := ih h2 (i + 1)
      exact ⟨j, by simp [openaiDocBlocks]; exact Or.inr hj⟩

theorem openai_grounding_contains {d : Document} {docs : List Document}
    (hd : d ∈ docs) :
    Substr d.pageContent (groundingHeader ++ openaiContextText docs) ∧
    ∀ src, d.source = some src →
      Substr src (groundingHeader ++ openaiContextText docs) := by
  obtain ⟨j, hj⟩ := mem_openaiDocBlocks hd 0
  have hjoin : Substr (openaiDocBlock j d) (openaiContextText docs) :=
    substr_joinSep "\n" hj
  constructor
  · exact substr_appendLeft _ (substr_trans (substr_pageContent_openaiDocBlock j d) hjoin)
  · intro src hsrc
    exact substr_appendLeft _
      (substr_trans (substr_source_openaiDocBlock j d src hsrc) hjoin)

theorem substr_pageContent_groqDocBlock (d : Document) :
    Substr d.pageContent (groqDocBlock d) :=
  ⟨("Document " ++
     (match d.url with
      | some u => u
      | none => "undefined") ++ ":\n").data,
   ("\nSource: " ++
     (match d.url with
      | some u => if u = "" then "Unknown" else u
      | none => "Unknown") ++ "\n").data,
   by simp [groqDocBlock, String.data_append]⟩

theorem substr_url_groqDocBlock (d : Document) (src : String)
    (h : d.url = some src) : Substr src (groqDocBlock d) := by
  by_cases hsrc : src = ""
  · exact hsrc ▸ substr_empty _
  · refine ⟨("Document " ++ src ++ ":\n" ++ d.pageContent ++ "\nSource: ").data,
      ("\n").data, ?_⟩
    simp [groqDocBlock, h, if_neg hsrc, String.data_append]

theorem groq_grounding_contains {d : Document} {docs : List Document}
    (hd : d ∈ docs) :
    Substr d.pageContent (groundingHeader ++ groqContextText docs) ∧
    ∀ src, d.url = some src →
      Substr src (groundingHeader ++ groqContextText docs) := by
  have hb : groqDocBlock d ∈ docs.map groqDocBlock := List.mem_map_of_mem _ hd
  have hjoin : Substr (groqDocBlock d) (groqContextText docs) :=
    substr_joinSep "\n" hb
  constructor
  · exact substr_appendLeft _ (substr_trans (substr_pageContent_groqDocBlock d) hjoin)
  · intro src hsrc
    exact substr_appendLeft _
      (substr_trans (substr_url_groqDocBlock d src hsrc) hjoin)

/-! ### Retrieval lemmas -/

theorem routeRetrieve_getLast_none {msgs : List ReqMsg}
    (search : String → Except String (List Document)) (f : Filter)
    (h : msgs.getLast? = none) : routeRetrieve search f msgs = (false, []) := by
  rw [routeRetrieve, h]

theorem routeRetrieve_getLast_some {msgs : List ReqMsg} {m : ReqMsg}
    (search : String → Except String (List Document)) (f : Filter)
    (h : msgs.getLast? = some m) :
    routeRetrieve search f msgs =
      if contentTruthy m.content then
        match retrieverInvoke search f 3 (queryTextOf m.content) with
        | .ok docs => (true, docs)
        | .error _ => (true, [])
      else (false, []) := by
  rw [routeRetrieve, h]

theorem routeRetrieve_byUserId_scope (search : String → Except String (List Document))
    (u : String) (msgs : List ReqMsg) :
    ∀ d ∈ (routeRetrieve search (Filter.byUserId u) msgs).2, d.userId = u := by
  intro d hd
  cases hlast : msgs.getLast? with
  | none =>
    rw [routeRetrieve_getLast_none search _ hlast] at hd
    cases hd
  | some m =>
    rw [routeRetrieve_getLast_some search _ hlast] at hd
    by_cases ht : contentTruthy m.content
    · rw [if_pos ht] at hd
      cases hres : retrieverInvoke search (Filter.byUserId u) 3 (queryTextOf m.content) with
      | ok docs =>
        rw [hres] at hd
        rw [retrieverInvoke] at hres
        cases hs : search (queryTextOf m.content) with
        | ok ds0 =>
          rw [hs] at hres
          simp [Except.map] at hres
          subst hres
          have hmem := List.take_subset 3 _ hd
          have := (List.mem_filter.mp hmem).2
          simpa [Filter.matches] using this
        | error e =>
          rw [hs] at hres
          simp [Except.map] at hres
      | error e =>
        rw [hres] at hd
        cases hd
    · rw [if_neg ht] at hd
      cases hd

theorem routeRetrieve_error (search : String → Except String (List Document))
    (f : Filter) (msgs : List ReqMsg) (err : String)
    (hfail : ∀ q, search q = Except.error err) :
    (routeRetrieve search f msgs).2 = [] := by
  cases hlast : msgs.getLast? with
  | none => rw [routeRetrieve_getLast_none search f hlast]
  | some m =>
    rw [routeRetrieve_getLast_some search f hlast]
    by_cases ht : contentTruthy m.content
    · rw [if_pos ht]
      simp only [retrieverInvoke, hfail]
      rfl
    · rw [if_neg ht]

theorem openaiPOST_scoped (uid : String) (msgs : List ReqMsg)
    (search : String → Except String (List Document))
    (gen : List ReqMsg → Option String → String) :
    ∀ d ∈ (openaiPOST (some uid) msgs search gen).retrievedDocs, d.userId = uid :=
  fun d hd => routeRetrieve_byUserId_scope search uid msgs d hd

/-! ## Claim theorems -/

/-- Claim C4: for every conversation id and every message sequence `M`,
`save(id, M)` followed by `load(id)` returns a sequence equal to `M`,
with every field of every message preserved and in the same order. -/
theorem claim_c4_save_load_roundtrip (s : Store) (id : String) (M : List Message) :
    loadChat (saveChat s id M) id = some M :=
  loadChat_saveChat s id M

/-- Claim C3: for every sequence of submits to the same conversation,
after each completed turn the message sequence persisted in the store
equals the in-memory sequence, including the just-finalized assistant
message. -/
theorem claim_c3_persisted_eq_memory (id : String) (st : ClientState)
    (ts : List (Message × Message)) (h : ts ≠ []) :
    loadChat (runTurns id st ts).store id = some (runTurns id st ts).messages := by
  cases ts with
  | nil => exact absurd rfl h
  | cons t rest =>
    clear h
    induction rest generalizing st t with
    | nil => simpa [runTurns] using loadChat_runTurn id st t
    | cons t2 rest2 ih =>
      have hstep : runTurns id st (t :: t2 :: rest2) =
          runTurns id (runTurn id st t) (t2 :: rest2) := by
        simp [runTurns]
      rw [hstep]
      exact ih (runTurn id st t) t2

/-- Witness for C3 at a single concrete turn. -/
theorem claim_c3_witness :
    loadChat (runTurns "c" ⟨[], []⟩
        [(⟨"m1", "user", "hi", some (JsTime.num 1)⟩, ⟨"m2", "assistant", "hello", some (JsTime.num 2)⟩)]).store "c" =
      some [⟨"m1", "user", "hi", some (JsTime.num 1)⟩, ⟨"m2", "assistant", "hello", some (JsTime.num 2)⟩] :=
  claim_c3_persisted_eq_memory "c" ⟨[], []⟩
    [(⟨"m1", "user", "hi", some (JsTime.num 1)⟩, ⟨"m2", "assistant", "hello", some (JsTime.num 2)⟩)] (by decide)

/-- Claim C8: `archive(id)` is idempotent, a no-op success on an unknown
id, and afterwards the conversation is absent from `list()` while
`load(id)` returns the empty sequence. -/
theorem claim_c8_archive (s : Store) (id : String) (now : Nat) :
    archiveChat (archiveChat s id) id = archiveChat s id ∧
    (getItem s (Key.chat id) = none → archiveChat s id = s) ∧
    loadChat (archiveChat s id) id = some [] ∧
    ∀ sm ∈ listChats (archiveChat s id) now, sm.id ≠ id := by
  refine ⟨removeItem_removeItem s (Key.chat id),
    fun h => removeItem_of_getItem_none s _ h, ?_, ?_⟩
  · rw [loadChat, archiveChat, getItem_removeItem_self]
  · intro sm hsm
    rw [listChats] at hsm
    have hmem := (perm_sortSummaries _).mem_iff.mp hsm
    obtain ⟨e, he, hse⟩ := List.mem_filterMap.mp hmem
    have hkey := summarizeEntry_key hse
    rw [archiveChat, removeItem] at he
    have hne : e.1 ≠ Key.chat id := by
      have := (List.mem_filter.mp he).2
      simpa using this
    intro hcontra
    exact hne (by rw [hkey, hcontra])

/-- Witness for C8 on a concrete two-entry store, discharging the
unknown-id hypothesis. -/
theorem claim_c8_witness :
    archiveChat (archiveChat [(Key.chat "b", Json.arr [])] "a") "a" =
        archiveChat [(Key.chat "b", Json.arr [])] "a" ∧
    archiveChat [(Key.chat "b", Json.arr [])] "a" = [(Key.chat "b", Json.arr [])] ∧
    loadChat (archiveChat [(Key.chat "b", Json.arr [])] "a") "a" = some [] :=
  ⟨(claim_c8_archive [(Key.chat "b", Json.arr [])] "a" 0).1,
   (claim_c8_archive [(Key.chat "b", Json.arr [])] "a" 0).2.1 rfl,
   (claim_c8_archive [(Key.chat "b", Json.arr [])] "a" 0).2.2.1⟩

/-- Claim C9: for an id unknown to the store, `load(id)` returns the
empty sequence without error, and a submit against that id proceeds as a
fresh conversation (the turn appends its two messages and persists
them). -/
theorem claim_c9_unknown_conversation (s : Store) (id : String)
    (h : getItem s (Key.chat id) = none) :
    loadChat s id = some [] ∧
    ∀ t : Message × Message,
      (runTurn id ⟨s, []⟩ t).messages = [t.1, t.2] ∧
      loadChat (runTurn id ⟨s, []⟩ t).store id = some [t.1, t.2] := by
  constructor
  · rw [loadChat, h]
  · intro t
    have hm : (runTurn id ⟨s, []⟩ t).messages = [t.1, t.2] := by
      rw [runTurn, appendAndSave_messages, appendAndSave_messages]
      simp
    refine ⟨hm, ?_⟩
    have hl := loadChat_runTurn id ⟨s, []⟩ t
    rw [hm] at hl
    exact hl

/-- Witness for C9: the empty store and one concrete turn. -/
theorem claim_c9_witness :
    loadChat [] "b" = some [] ∧
    (runTurn "b" ⟨[], []⟩
        (⟨"u1", "user", "hi", some (JsTime.num 1)⟩, ⟨"a1", "assistant", "ok", some (JsTime.num 2)⟩)).messages =
      [⟨"u1", "user", "hi", some (JsTime.num 1)⟩, ⟨"a1", "assistant", "ok", some (JsTime.num 2)⟩] ∧
    loadChat (runTurn "b" ⟨[], []⟩
        (⟨"u1", "user", "hi", some (JsTime.num 1)⟩, ⟨"a1", "assistant", "ok", some (JsTime.num 2)⟩)).store "b" =
      some [⟨"u1", "user", "hi", some (JsTime.num 1)⟩, ⟨"a1", "assistant", "ok", some (JsTime.num 2)⟩] :=
  ⟨(claim_c9_unknown_conversation [] "b" rfl).1,
   ((claim_c9_unknown_conversation [] "b" rfl).2
     (⟨"u1", "user", "hi", some (JsTime.num 1)⟩, ⟨"a1", "assistant", "ok", some (JsTime.num 2)⟩)).1,
   ((claim_c9_unknown_conversation [] "b" rfl).2
     (⟨"u1", "user", "hi", some (JsTime.num 1)⟩, ⟨"a1", "assistant", "ok", some (JsTime.num 2)⟩)).2⟩

/-- Claim C10: a stored record that fails to parse is silently omitted
from `list()` and the remaining conversations are still listed. -/
theorem claim_c10_corrupt_entry_omitted (pre post : Store) (id : String)
    (j : Json) (now : Nat) (h : decodeMessages j = none) :
    listChats (pre ++ (Key.chat id, j) :: post) now = listChats (pre ++ post) now := by
  rw [listChats, listChats, List.filterMap_append, List.filterMap_append,
    List.filterMap_cons]
  simp [summarizeEntry, h]

/-- Witness for C10: a store with one well-formed and one corrupt
record. -/
theorem claim_c10_witness :
    listChats [(Key.chat "a", Json.arr []), (Key.chat "bad", Json.str "oops")] 7 =
      listChats [(Key.chat "a", Json.arr [])] 7 :=
  claim_c10_corrupt_entry_omitted [(Key.chat "a", Json.arr [])] [] "bad"
    (Json.str "oops") 7 rfl

/-- Claim C7 (code bug at the ordering clause): the timestamps the
client itself persists are the ai SDK Date values serialized by
`JSON.stringify` into ISO date strings, so the comparator
`b.createdAt - a.createdAt` in `listChats` evaluates to `NaN`, which
`Array.prototype.sort` treats as `+0`; the summaries therefore stay in
enumeration order.  Here the conversation created later (June) still
appears after the one created earlier (January), so `list()` is not
ordered by creation time descending. -/
theorem claim_c7_iso_timestamps_not_sorted :
    (listChats
        [(Key.chat "old", encodeMessages
            [⟨"m1", "user", "first question", some (JsTime.str "2024-01-01T00:00:00.000Z")⟩]),
         (Key.chat "new", encodeMessages
            [⟨"m2", "user", "second question", some (JsTime.str "2024-06-01T00:00:00.000Z")⟩])]
        99).map ChatSummary.id = ["old", "new"] ∧
    (listChats
        [(Key.chat "old", encodeMessages
            [⟨"m1", "user", "first question", some (JsTime.str "2024-01-01T00:00:00.000Z")⟩]),
         (Key.chat "new", encodeMessages
            [⟨"m2", "user", "second question", some (JsTime.str "2024-06-01T00:00:00.000Z")⟩])]
        99).map ChatSummary.createdAt =
      [JsTime.str "2024-01-01T00:00:00.000Z", JsTime.str "2024-06-01T00:00:00.000Z"] ∧
    (listChats
        [(Key.chat "old", encodeMessages
            [⟨"m1", "user", "first question", some (JsTime.num 1704067200000)⟩]),
         (Key.chat "new", encodeMessages
            [⟨"m2", "user", "second question", some (JsTime.num 1717200000000)⟩])]
        99).map ChatSummary.id = ["new", "old"] := by
  decide

/-- Claim C1 (code divergence): the groq route builds its retriever
with the empty filter string, so one turn can return passages indexed
under two different scope keys; retrieval there is not restricted to a
single per-user namespace. -/
theorem claim_c1_groq_cross_scope_leak :
    ∃ d1 ∈ (groqPOST [⟨"user", ReqContent.str "what is x"⟩]
        (fun _ => Except.ok
          [⟨"alpha", some "docs://a", some "docs://a", "alice"⟩,
           ⟨"beta", some "docs://b", some "docs://b", "bob"⟩])
        (fun _ _ => "answer")).retrievedDocs,
      ∃ d2 ∈ (groqPOST [⟨"user", ReqContent.str "what is x"⟩]
        (fun _ => Except.ok
          [⟨"alpha", some "docs://a", some "docs://a", "alice"⟩,
           ⟨"beta", some "docs://b", some "docs://b", "bob"⟩])
        (fun _ _ => "answer")).retrievedDocs,
      d1.userId ≠ d2.userId := by
  decide

/-- Claim C2: when the retrieval backend always fails, both routes
still complete the turn: the failure is caught, the document list is
empty, no grounding is added, and generation still produces the
assistant text. -/
theorem claim_c2_retrieval_failure_soft (uid : Option String)
    (msgs : List ReqMsg) (search : String → Except String (List Document))
    (gen : List ReqMsg → Option String → String) (err : String)
    (hfail : ∀ q, search q = Except.error err) :
    (openaiPOST uid msgs search gen).retrievedDocs = [] ∧
    (openaiPOST uid msgs search gen).system = none ∧
    (openaiPOST uid msgs search gen).assistantText = gen msgs none ∧
    (groqPOST msgs search gen).retrievedDocs = [] ∧
    (groqPOST msgs search gen).system = none ∧
    (groqPOST msgs search gen).assistantText = gen msgs none := by
  have ho := routeRetrieve_error search (Filter.byUserId (uid.getD "null")) msgs err hfail
  have hg := routeRetrieve_error search Filter.empty msgs err hfail
  refine ⟨?_, ?_, ?_, ?_, ?_, ?_⟩ <;> simp [openaiPOST, groqPOST, ho, hg]

/-- Witness for C2: a backend that always errors still yields the
ungrounded generation result on both routes. -/
theorem claim_c2_witness :
    (openaiPOST (some "u") [⟨"user", ReqContent.str "hi"⟩]
        (fun _ => Except.error "down") (fun _ _ => "ungrounded")).retrievedDocs = [] ∧
    (openaiPOST (some "u") [⟨"user", ReqContent.str "hi"⟩]
        (fun _ => Except.error "down") (fun _ _ => "ungrounded")).system = none ∧
    (openaiPOST (some "u") [⟨"user", ReqContent.str "hi"⟩]
        (fun _ => Except.error "down") (fun _ _ => "ungrounded")).assistantText =
      "ungrounded" ∧
    (groqPOST [⟨"user", ReqContent.str "hi"⟩]
        (fun _ => Except.error "down") (fun _ _ => "ungrounded")).retrievedDocs = [] ∧
    (groqPOST [⟨"user", ReqContent.str "hi"⟩]
        (fun _ => Except.error "down") (fun _ _ => "ungrounded")).system = none ∧
    (groqPOST [⟨"user", ReqContent.str "hi"⟩]
        (fun _ => Except.error "down") (fun _ _ => "ungrounded")).assistantText =
      "ungrounded" :=
  claim_c2_retrieval_failure_soft (some "u") [⟨"user", ReqContent.str "hi"⟩]
    (fun _ => Except.error "down") (fun _ _ => "ungrounded") "down" (fun _ => rfl)

/-- Claim C5 (amended): on both routes, retrieval is skipped, with no
backend call and an empty passage list, whenever the most recent
message is absent or its content is an empty (falsy) value. -/
theorem claim_c5_skip_on_falsy_content (uid : Option String)
    (msgs : List ReqMsg) (search : String → Except String (List Document))
    (gen : List ReqMsg → Option String → String)
    (h : ∀ m, msgs.getLast? = some m → contentTruthy m.content = false) :
    (openaiPOST uid msgs search gen).retrievalAttempted = false ∧
    (openaiPOST uid msgs search gen).retrievedDocs = [] ∧
    (groqPOST msgs search gen).retrievalAttempted = false ∧
    (groqPOST msgs search gen).retrievedDocs = [] := by
  have hr : ∀ f : Filter, routeRetrieve search f msgs = (false, []) := by
    intro f
    cases hlast : msgs.getLast? with
    | none => exact routeRetrieve_getLast_none search _ hlast
    | some m =>
      rw [routeRetrieve_getLast_some search _ hlast]
      simp [h m hlast]
  refine ⟨?_, ?_, ?_, ?_⟩ <;> simp [openaiPOST, groqPOST, hr]

/-- Witness for C5 (amended): an empty-string user message skips the
backend on both routes. -/
theorem claim_c5_witness :
    (openaiPOST (some "u") [⟨"user", ReqContent.str ""⟩]
        (fun _ => Except.ok [⟨"t", none, none, "u"⟩])
        (fun _ _ => "a")).retrievalAttempted = false ∧
    (openaiPOST (some "u") [⟨"user", ReqContent.str ""⟩]
        (fun _ => Except.ok [⟨"t", none, none, "u"⟩])
        (fun _ _ => "a")).retrievedDocs = [] ∧
    (groqPOST [⟨"user", ReqContent.str ""⟩]
        (fun _ => Except.ok [⟨"t", none, none, "u"⟩])
        (fun _ _ => "a")).retrievalAttempted = false ∧
    (groqPOST [⟨"user", ReqContent.str ""⟩]
        (fun _ => Except.ok [⟨"t", none, none, "u"⟩])
        (fun _ _ => "a")).retrievedDocs = [] :=
  claim_c5_skip_on_falsy_content (some "u") [⟨"user", ReqContent.str ""⟩]
    (fun _ => Except.ok [⟨"t", none, none, "u"⟩]) (fun _ _ => "a")
    (fun m hm => by
      have hm2 : m = ⟨"user", ReqContent.str ""⟩ := (Option.some.inj hm).symm
      rw [hm2]
      rfl)

/-- Counterexample to C5 as stated: a whitespace-only user message is
truthy, so the backend is still called and the passage list for the
turn is non-empty. -/
theorem claim_c5_counterexample :
    ((" ").data.all Char.isWhitespace = true) ∧
    (openaiPOST (some "u") [⟨"user", ReqContent.str " "⟩]
        (fun _ => Except.ok [⟨"X is a widget", some "docs://x", some "docs://x", "u"⟩])
        (fun _ _ => "answer")).retrievalAttempted = true ∧
    (openaiPOST (some "u") [⟨"user", ReqContent.str " "⟩]
        (fun _ => Except.ok [⟨"X is a widget", some "docs://x", some "docs://x", "u"⟩])
        (fun _ _ => "answer")).retrievedDocs =
      [⟨"X is a widget", some "docs://x", some "docs://x", "u"⟩] := by
  decide

/-- Claim C6: on both routes, the system-level grounding addition is
absent exactly when no passages were retrieved; when present it
contains, for every retrieved passage, the literal passage text and
the source locator the route cites (`metadata.source` on the openai
route, `metadata.url` on the groq route). -/
theorem claim_c6_grounding_block (uid : Option String) (msgs : List ReqMsg)
    (search : String → Except String (List Document))
    (gen : List ReqMsg → Option String → String) :
    ((openaiPOST uid msgs search gen).system = none ↔
      (openaiPOST uid msgs search gen).retrievedDocs = []) ∧
    (∀ block, (openaiPOST uid msgs search gen).system = some block →
      ∀ d ∈ (openaiPOST uid msgs search gen).retrievedDocs,
        Substr d.pageContent block ∧
        ∀ src, d.source = some src → Substr src block) ∧
    ((groqPOST msgs search gen).system = none ↔
      (groqPOST msgs search gen).retrievedDocs = []) ∧
    (∀ block, (groqPOST msgs search gen).system = some block →
      ∀ d ∈ (groqPOST msgs search gen).retrievedDocs,
        Substr d.pageContent block ∧
        ∀ src, d.url = some src → Substr src block) := by
  refine ⟨?_, ?_, ?_, ?_⟩
  · simp only [openaiPOST]
    rcases (routeRetrieve search (Filter.byUserId (uid.getD "null")) msgs).2 with _ | ⟨d0, ds⟩
    · simp
    · simp
  · intro block hblock d hd
    simp only [openaiPOST] at hblock hd
    rcases hlist : (routeRetrieve search (Filter.byUserId (uid.getD "null")) msgs).2
      with _ | ⟨d0, ds⟩
    · rw [hlist] at hd
      cases hd
    · rw [hlist] at hblock hd
      simp at hblock
      obtain ⟨hpc, hsrc⟩ := openai_grounding_contains hd
      exact ⟨hblock ▸ hpc, fun src hs => hblock ▸ hsrc src hs⟩
  · simp only [groqPOST]
    rcases (routeRetrieve search Filter.empty msgs).2 with _ | ⟨d0, ds⟩
    · simp
    · simp
  · intro block hblock d hd
    simp only [groqPOST] at hblock hd
    rcases hlist : (routeRetrieve search Filter.empty msgs).2 with _ | ⟨d0, ds⟩
    · rw [hlist] at hd
      cases hd
    · rw [hlist] at hblock hd
      simp at hblock
      obtain ⟨hpc, hsrc⟩ := groq_grounding_contains hd
      exact ⟨hblock ▸ hpc, fun src hs => hblock ▸ hsrc src hs⟩

/-- Witness for C6: one retrieved passage; on each route the grounding
block contains its text and its cited locator. -/
theorem claim_c6_witness :
    (Substr "X is a widget"
      (groundingHeader ++ "Document 1:\nX is a widget\nSource: docs://x\n") ∧
     Substr "docs://x"
      (groundingHeader ++ "Document 1:\nX is a widget\nSource: docs://x\n")) ∧
    (Substr "X is a widget"
      (groundingHeader ++ "Document docs://x:\nX is a widget\nSource: docs://x\n") ∧
     Substr "docs://x"
      (groundingHeader ++ "Document docs://x:\nX is a widget\nSource: docs://x\n")) :=
  have ho := (claim_c6_grounding_block (some "u") [⟨"user", ReqContent.str "What is X?"⟩]
    (fun _ => Except.ok [⟨"X is a widget", some "docs://x", some "docs://x", "u"⟩])
    (fun _ _ => "answer")).2.1
    (groundingHeader ++ "Document 1:\nX is a widget\nSource: docs://x\n") rfl
    ⟨"X is a widget", some "docs://x", some "docs://x", "u"⟩ (by decide)
  have hg := (claim_c6_grounding_block (some "u") [⟨"user", ReqContent.str "What is X?"⟩]
    (fun _ => Except.ok [⟨"X is a widget", some "docs://x", some "docs://x", "u"⟩])
    (fun _ _ => "answer")).2.2.2
    (groundingHeader ++ "Document docs://x:\nX is a widget\nSource: docs://x\n") rfl
    ⟨"X is a widget", some "docs://x", some "docs://x", "u"⟩ (by decide)
  ⟨⟨ho.1, ho.2 "docs://x" rfl⟩, ⟨hg.1, hg.2 "docs://x" rfl⟩⟩

end Documix
